import Mathlib

/-!
Shallow embedding of `src/tokenizer.py` (FSMLang): a line-oriented lexical
scanner built from a list of token matchers.  Strings are modelled as
`List Char`; the mutable `is_multiline` flag of the comment matcher is
threaded explicitly; exceptions are modelled with `Except` / `Option`.
Every definition follows the Python source; divergences of the source from
its specification are preserved, not repaired.
-/

namespace FSMLang

/-- Python regex class `\s` over the characters that can occur here:
space, tab, newline, carriage return, vertical tab, form feed. -/
def pyIsSpace (c : Char) : Bool :=
  c == ' ' || c == '\t' || c == '\n' || c == '\r' || c == '\x0b' || c == '\x0c'

/-- Python `str.splitlines`, accumulator form.  Terminators `\n`, `\r`,
`\r\n` end a line; a trailing terminator does not open an empty final line. -/
def splitlinesGo : List Char → List Char → List (List Char)
  | [], acc => if acc.isEmpty then [] else [acc.reverse]
  | '\r' :: '\n' :: t, acc => acc.reverse :: splitlinesGo t []
  | '\r' :: t, acc => acc.reverse :: splitlinesGo t []
  | '\n' :: t, acc => acc.reverse :: splitlinesGo t []
  | c :: t, acc => splitlinesGo t (c :: acc)

/-- Python `str.splitlines` (source line 161: `stream.splitlines()`). -/
def pySplitlines (s : List Char) : List (List Char) :=
  splitlinesGo s []

/-- Python `str.strip()`: drop leading and trailing whitespace. -/
def pyStrip (xs : List Char) : List Char :=
  ((xs.dropWhile pyIsSpace).reverse.dropWhile pyIsSpace).reverse

/-- Python `str.split(" ")` with an explicit separator: split at every single
space, keeping empty chunks; `"".split(" ") = [""]`. -/
def splitOnSpace : List Char → List (List Char)
  | [] => [[]]
  | ' ' :: t => [] :: splitOnSpace t
  | c :: t =>
    match splitOnSpace t with
    | [] => [[c]]
    | h :: r => (c :: h) :: r

/-- Python `str.isspace()`: nonempty and every character is whitespace. -/
def pyIsSpaceStr (xs : List Char) : Bool :=
  !xs.isEmpty && xs.all pyIsSpace

/-- Python `stream.index(sub)` / `sub in stream`: index of the first
occurrence of `needle` as a contiguous substring, if any. -/
def findSub (needle : List Char) : List Char → Option Nat
  | [] => if needle.isPrefixOf ([] : List Char) then some 0 else none
  | c :: t =>
    if needle.isPrefixOf (c :: t) then some 0
    else (findSub needle t).map (· + 1)

/-- `LineInfo(line_number, line_start, line_end)` from the source. -/
structure LineInfo where
  line_number : Nat
  line_start : Nat
  line_end : Option Nat
deriving DecidableEq

/-- `FloatingToken(token_id, value)` from the source. -/
structure FloatingToken where
  token_id : List Char
  value : Option (List Char)
deriving DecidableEq

/-- `Token(token, line_info)` from the source. -/
structure Token where
  token : FloatingToken
  line_info : LineInfo
deriving DecidableEq

/-- `Symbol(symbol, token)` from the source: a literal and its token id. -/
structure Symbol where
  symbol : List Char
  token : List Char
deriving DecidableEq

/-- State of a `CommentMatcher`: the mutable `is_multiline` flag and the three
configured symbols. -/
structure CommentMatcher where
  is_multiline : Bool
  ml_start : Symbol
  ml_end : Symbol
  comment : Symbol
deriving DecidableEq

/-- The concrete `TokenMatcher` variants of the source file. -/
inductive TokenMatcher where
  | symbolMatcher (symbols : List Symbol)
  | commentMatcher (cm : CommentMatcher)
deriving DecidableEq

/-- `SymbolMatcher.match_token` (source lines 257-270): first symbol in list
order whose literal is a prefix of the stream wins; width is that literal's
length.  Stateless, so no updated matcher is returned. -/
def SymbolMatcher.match_token (symbols : List Symbol) (stream : List Char) :
    Option (FloatingToken × Nat) :=
  match symbols with
  | [] => none
  | s :: rest =>
    if s.symbol.isPrefixOf stream then some (⟨s.token, some s.symbol⟩, s.symbol.length)
    else SymbolMatcher.match_token rest stream

/-- `CommentMatcher.match_token` (source lines 285-314), state threaded
explicitly.  Two quirks of the source are preserved verbatim: the end-of-
multiline branch returns `comment_end + 2` (a hard-coded 2, source line 300),
and the start-of-multiline branch returns `len(self.ml_start.token)` — the
length of the token-id string, not of the start literal (source line 312). -/
def CommentMatcher.match_token (cm : CommentMatcher) (stream : List Char) :
    CommentMatcher × Option (FloatingToken × Nat) :=
  if cm.is_multiline then
    match findSub cm.ml_end.symbol stream with
    | some comment_end =>
      ({ cm with is_multiline := false }, some (⟨cm.ml_end.token, none⟩, comment_end + 2))
    | none => (cm, some (⟨cm.ml_end.token, none⟩, stream.length))
  else if cm.comment.symbol.isPrefixOf stream then
    (cm, some (⟨cm.comment.token, none⟩, stream.length))
  else if cm.ml_start.symbol.isPrefixOf stream then
    ({ cm with is_multiline := true }, some (⟨cm.ml_start.token, none⟩, cm.ml_start.token.length))
  else (cm, none)

/-- `CommentMatcher.end_matching` (source lines 316-320): when still inside a
multiline comment, walk the emitted tokens in reverse and raise
`NoEndException(line_number, line_start)` at the first token whose id equals
the start-marker's token id; `some (n, p)` models the raised exception,
`none` a normal return. -/
def CommentMatcher.end_matching (cm : CommentMatcher) (tokens : List Token) :
    Option (Nat × Nat) :=
  if cm.is_multiline then
    (tokens.reverse.find? (fun t => t.token.token_id == cm.ml_start.token)).map
      (fun t => (t.line_info.line_number, t.line_info.line_start))
  else none

/-- Dispatch of `TokenMatcher.match_token` over the two variants, returning
the (possibly updated) matcher alongside the result. -/
def TokenMatcher.match_token (m : TokenMatcher) (stream : List Char) :
    TokenMatcher × Option (FloatingToken × Nat) :=
  match m with
  | .symbolMatcher symbols => (m, SymbolMatcher.match_token symbols stream)
  | .commentMatcher cm =>
    match cm.match_token stream with
    | (cm', r) => (.commentMatcher cm', r)

/-- `FloatingTokenizer.match_token` (source lines 134-145): try each matcher
in registration order, return the first hit; matcher state updates are
threaded through the list. -/
def FloatingTokenizer.match_token : List TokenMatcher → List Char →
    List TokenMatcher × Option (FloatingToken × Nat)
  | [], _ => ([], none)
  | m :: ms, stream =>
    match m.match_token stream with
    | (m', some r) => (m' :: ms, some r)
    | (m', none) =>
      match FloatingTokenizer.match_token ms stream with
      | (ms', r) => (m' :: ms', r)

/-- The two failure kinds a scan can produce.  `badToken` models
`BadTokenException(line_number, line_position, line)`; `outOfFuel` marks
runs on which the Python loop would not terminate (a matcher returning
width 0 with no leading whitespace) and is never produced on the inputs
of interest. -/
inductive ScanError where
  | badToken (line_number : Nat) (line_position : Nat) (line : List Char)
  | outOfFuel
deriving DecidableEq

/-- Cursor position after the leading-whitespace strip of source lines
170-171: `line_pos += self.whitespace_matcher.match(line[line_pos:]).end(0)`. -/
def strippedPos (line : List Char) (line_pos : Nat) : Nat :=
  line_pos + ((line.drop line_pos).takeWhile pyIsSpace).length

/-- The per-line `while line_pos < len(line)` loop of
`Tokenizer.match_tokens` (source lines 166-182), with explicit fuel.  Each
Python iteration consumes one unit; `line.length + 1` units suffice whenever
every match has positive advance. -/
def Tokenizer.scanLine : Nat → List TokenMatcher → Nat → List Char → Nat → List Token →
    List TokenMatcher × Except ScanError (List Token)
  | 0, ms, _, _, _, _ => (ms, Except.error ScanError.outOfFuel)
  | fuel + 1, ms, line_number, line, line_pos, output =>
    if line_pos < line.length then
      if strippedPos line line_pos = line.length then (ms, Except.ok output)
      else
        match FloatingTokenizer.match_token ms (line.drop (strippedPos line line_pos)) with
        | (ms', none) =>
          (ms', Except.error (ScanError.badToken line_number (strippedPos line line_pos) line))
        | (ms', some (tok, width)) =>
          Tokenizer.scanLine fuel ms' line_number line (strippedPos line line_pos + width)
            (output ++ [⟨tok, ⟨line_number, strippedPos line line_pos,
              some (strippedPos line line_pos + width)⟩⟩])
    else (ms, Except.ok output)

/-- The `for line_number, line in enumerate(lines)` loop of
`Tokenizer.match_tokens` (source line 165), accumulating one output list
across lines. -/
def Tokenizer.matchLines : List TokenMatcher → List (List Char) → Nat → List Token →
    List TokenMatcher × Except ScanError (List Token)
  | ms, [], _, output => (ms, Except.ok output)
  | ms, line :: rest, line_number, output =>
    match Tokenizer.scanLine (line.length + 1) ms line_number line 0 output with
    | (ms', Except.ok output') => Tokenizer.matchLines ms' rest (line_number + 1) output'
    | (ms', Except.error e) => (ms', Except.error e)

/-- `Tokenizer.match_tokens` (source lines 160-187).  Note that the source
returns `output` directly after the line loop: `end_matching` is never
invoked there, so no `NoEndException` can arise from a scan. -/
def Tokenizer.match_tokens (ms : List TokenMatcher) (stream : List Char) :
    List TokenMatcher × Except ScanError (List Token) :=
  Tokenizer.matchLines ms (pySplitlines stream) 0 []

/-- Fields of one line of the bulk symbol specification (source line 229):
strip the line, split on single spaces, keep chunks that are nonempty and not
all-whitespace, and strip each kept chunk. -/
def symbolLineFields (line : List Char) : List (List Char) :=
  ((splitOnSpace (pyStrip line)).filter
    (fun x => !x.isEmpty && !pyIsSpaceStr x)).map pyStrip

/-- One line of `SymbolMatcher.__init__`'s loop (source lines 227-234):
exactly two fields or `ValueError` (modelled as `none`). -/
def SymbolMatcher.parseLine (line : List Char) : Option Symbol :=
  match symbolLineFields line with
  | [a, b] => some ⟨a, b⟩
  | _ => none

/-- The whole `__init__` loop over `symbols.splitlines()`: every line must
parse, and the resulting symbols keep line order. -/
def SymbolMatcher.parseLines : List (List Char) → Option (List Symbol)
  | [] => some []
  | line :: rest =>
    match SymbolMatcher.parseLine line, SymbolMatcher.parseLines rest with
    | some s, some syms => some (s :: syms)
    | _, _ => none

/-- `SymbolMatcher.__init__` on a bulk specification string
(source lines 218-234). -/
def SymbolMatcher.ofSpec (symbols : List Char) : Option (List Symbol) :=
  SymbolMatcher.parseLines (pySplitlines symbols)

/-- CPython attribute semantics of `FloatingTokenizer` (source line 121):
the class body runs `matchers: List[TokenMatcher] = []` once, creating a
single list object stored on the class.  `Tokenizer.__init__` and
`FloatingTokenizer` never assign `self.matchers`, so attribute lookup on
every instance resolves to that one class-level list, and `add_matcher`'s
`self.matchers.append(matcher)` (source line 132) mutates it in place.  The
model therefore carries the class attribute as one shared state component. -/
structure PyClassState where
  floatingTokenizer_matchers : List TokenMatcher
deriving DecidableEq

/-- The class attribute as it stands when the class body has run: one empty
list. -/
def PyClassState.init : PyClassState := ⟨[]⟩

/-- `Tokenizer()` (source lines 150-152): constructs a fresh
`FloatingTokenizer`, which touches no attribute named `matchers`, so the
shared class state is unchanged. -/
def Tokenizer.new (st : PyClassState) : PyClassState := st

/-- `tokenizer.add_matcher(matcher)` (source lines 157-158 and 126-132):
appends to the class-level list, whichever instance it is called on. -/
def Tokenizer.add_matcher (st : PyClassState) (m : TokenMatcher) : PyClassState :=
  ⟨st.floatingTokenizer_matchers ++ [m]⟩

/-- The matcher list any instance observes through `self.matchers`. -/
def Tokenizer.matchersOf (st : PyClassState) : List TokenMatcher :=
  st.floatingTokenizer_matchers

/-- Accumulator form of `claimWhitespaceFields`. -/
def claimFieldsGo : List Char → List Char → List (List Char)
  | [], acc => if acc.isEmpty then [] else [acc.reverse]
  | c :: t, acc =>
    if pyIsSpace c then
      if acc.isEmpty then claimFieldsGo t [] else acc.reverse :: claimFieldsGo t []
    else claimFieldsGo t (c :: acc)

/-- Spec-side reading of the bulk-format fields, for comparison with
`symbolLineFields`: the maximal runs of non-whitespace characters, i.e.
splitting on arbitrary whitespace including tabs. -/
def claimWhitespaceFields (line : List Char) : List (List Char) :=
  claimFieldsGo line []

/-- The token id `"MULTILINE_START"` of the demonstration block: 15 characters. -/
def mlStartKind : List Char :=
  ['M', 'U', 'L', 'T', 'I', 'L', 'I', 'N', 'E', '_', 'S', 'T', 'A', 'R', 'T']

/-- The token id `"MULTILINE_END"` of the demonstration block. -/
def mlEndKind : List Char :=
  ['M', 'U', 'L', 'T', 'I', 'L', 'I', 'N', 'E', '_', 'E', 'N', 'D']

/-- The token id `"SINGLE_COMMENT"` of the demonstration block. -/
def singleKind : List Char :=
  ['S', 'I', 'N', 'G', 'L', 'E', '_', 'C', 'O', 'M', 'M', 'E', 'N', 'T']

/-- The comment matcher of the demonstration block (source lines 351-353). -/
def demoCommentMatcher : CommentMatcher :=
  ⟨false, ⟨['/', '*'], mlStartKind⟩, ⟨['*', '/'], mlEndKind⟩, ⟨['/', '/'], singleKind⟩⟩

/-- A symbol matcher holding `!==`, `!=`, `!` in that order, with three
distinguishable kinds. -/
def demoBang : List Symbol :=
  [⟨['!', '=', '='], ['K', '3']⟩, ⟨['!', '='], ['K', '2']⟩, ⟨['!'], ['K', '1']⟩]

/-- A symbol matcher holding only `";"`, for the same-line comment test. -/
def semiSymbols : List Symbol := [⟨[';'], ['S', 'E', 'M', 'I']⟩]

/-- A comment matcher currently inside a multi-line comment whose end-marker
literal has length 3. -/
def cmEnd3 : CommentMatcher :=
  ⟨true, ⟨['<', '<'], ['S']⟩, ⟨['e', 'n', 'd'], ['E']⟩, ⟨['#'], ['C']⟩⟩

/-- The property C9 asserts of a token emitted while scanning line `n` whose
text is `line`: the token records line number `n`, and there is a dispatcher
state under which matching the line's suffix at the token's recorded start
column returns exactly this token's unit with some width `w` such that the
recorded end offset is the start offset plus `w`.  The existential dispatcher
state is witnessed, in the proof, by the actual matcher state at the moment
the token was produced. -/
def tokOkLine (n : Nat) (line : List Char) (tok : Token) : Prop :=
  tok.line_info.line_number = n ∧
  ∃ ms w,
    (FloatingTokenizer.match_token ms (line.drop tok.line_info.line_start)).2 =
      some (tok.token, w) ∧
    tok.line_info.line_end = some (tok.line_info.line_start + w)

/-- The property C9 asserts of a token emitted by a whole-input scan,
relative to the input's split lines. -/
def tokenFromDispatcher (lines : List (List Char)) (tok : Token) : Prop :=
  ∃ hn : tok.line_info.line_number < lines.length,
    ∃ ms w,
      (FloatingTokenizer.match_token ms
          ((lines.get ⟨tok.line_info.line_number, hn⟩).drop tok.line_info.line_start)).2 =
        some (tok.token, w) ∧
      tok.line_info.line_end = some (tok.line_info.line_start + w)

/-- C1: the claim says a scan that ends still inside an unterminated
multi-line comment invokes finalize after the last line and raises
`NoEndException` at the opening marker, rather than returning tokens.  The
source's `match_tokens` never invokes `end_matching`: scanning `"/*"` with
the demonstration comment matcher returns the token list normally, leaving
the matcher inside the comment, although `end_matching` — had it been
invoked on that final state and output — would have raised
`NoEndException(0, 0)`. -/
theorem C1_match_tokens_skips_finalize :
    Tokenizer.match_tokens [TokenMatcher.commentMatcher demoCommentMatcher] ['/', '*'] =
      ([TokenMatcher.commentMatcher { demoCommentMatcher with is_multiline := true }],
        Except.ok [⟨⟨mlStartKind, none⟩, ⟨0, 0, some 15⟩⟩]) ∧
    CommentMatcher.end_matching { demoCommentMatcher with is_multiline := true }
      [⟨⟨mlStartKind, none⟩, ⟨0, 0, some 15⟩⟩] = some (0, 0) :=
  ⟨rfl, rfl⟩

/-- C2: the claim says each scanner instance owns an independent, initially
empty matcher registry.  In the source, `FloatingTokenizer.matchers` is a
single class-level list shared by every instance: after constructing two
tokenizers and registering one matcher through the first, the registry the
second instance observes is that same one-element list, not an empty one. -/
theorem C2_registry_shared_across_instances :
    Tokenizer.matchersOf
        (Tokenizer.add_matcher (Tokenizer.new (Tokenizer.new PyClassState.init))
          (TokenMatcher.symbolMatcher demoBang)) =
      [TokenMatcher.symbolMatcher demoBang] ∧
    [TokenMatcher.symbolMatcher demoBang] ≠ ([] : List TokenMatcher) :=
  ⟨rfl, by simp⟩

/-- C3: the claim says matching a multi-line start marker returns a width
equal to the length of the start-marker literal.  The source returns
`len(self.ml_start.token)` — the length of the token-id string
(`"MULTILINE_START"`, 15 characters) — not the length of the literal
(`"/*"`, 2 characters). -/
theorem C3_start_width_is_kind_length :
    CommentMatcher.match_token demoCommentMatcher ['/', '*', ' ', 'x', ' ', '*', '/'] =
      ({ demoCommentMatcher with is_multiline := true }, some (⟨mlStartKind, none⟩, 15)) ∧
    (['/', '*'] : List Char).length = 2 ∧ (15 : Nat) ≠ 2 :=
  ⟨rfl, rfl, by decide⟩

/-- C4: the claim says scanning `"/* x */ ;"` with the comment matcher before
a `";"` symbol matcher yields three tokens (start-comment, end-comment, and
`";"`).  Because the start-marker branch returns the token-id length 15 as
its width, the cursor overshoots the 9-character line after the first match:
the scan emits exactly one token and ends still inside the comment. -/
theorem C4_same_line_comment_one_token :
    Tokenizer.match_tokens
        [TokenMatcher.commentMatcher demoCommentMatcher, TokenMatcher.symbolMatcher semiSymbols]
        ['/', '*', ' ', 'x', ' ', '*', '/', ' ', ';'] =
      ([TokenMatcher.commentMatcher { demoCommentMatcher with is_multiline := true },
        TokenMatcher.symbolMatcher semiSymbols],
        Except.ok [⟨⟨mlStartKind, none⟩, ⟨0, 0, some 15⟩⟩]) ∧
    ([(⟨⟨mlStartKind, none⟩, ⟨0, 0, some 15⟩⟩ : Token)] : List Token).length = 1 ∧
    (1 : Nat) ≠ 3 :=
  ⟨rfl, rfl, by decide⟩

/-- C5 counterexample: the claim says that, inside a multi-line comment with
the end marker occurring in the remaining line, the width is the index of the
first occurrence plus the length of the end-marker literal.  With end marker
`"end"` (length 3) occurring at index 1 of `"xendy"`, the source returns
width `1 + 2 = 3` (the 2 is hard-coded), not `1 + 3 = 4`. -/
theorem C5_counterexample_hardcoded_two :
    findSub cmEnd3.ml_end.symbol ['x', 'e', 'n', 'd', 'y'] = some 1 ∧
    cmEnd3.ml_end.symbol.length = 3 ∧
    CommentMatcher.match_token cmEnd3 ['x', 'e', 'n', 'd', 'y'] =
      ({ cmEnd3 with is_multiline := false }, some (⟨['E'], none⟩, 3)) ∧
    (3 : Nat) ≠ 1 + 3 :=
  ⟨rfl, rfl, rfl, by decide⟩

/-- C6 counterexample: the claim says a specification line whose literal and
kind are separated by arbitrary whitespace (including a tab) yields one
`(literal, kind)` pair, and construction fails exactly when some non-blank
line does not split into two non-empty fields.  The line `"a\tb"` has
exactly two whitespace-separated fields, yet the source splits on single
spaces only and rejects it with `ValueError`. -/
theorem C6_counterexample_tab_separator :
    claimWhitespaceFields ['a', '\t', 'b'] = [['a'], ['b']] ∧
    SymbolMatcher.ofSpec ['a', '\t', 'b'] = none :=
  ⟨rfl, rfl⟩

/-- When `findSub` finds an index, the needle occurs there and at no earlier
index: `findSub` computes the first-occurrence index of Python `str.index`. -/
theorem findSub_some_spec (needle : List Char) :
    ∀ (hay : List Char) (i : Nat), findSub needle hay = some i →
      needle.isPrefixOf (hay.drop i) = true ∧
      ∀ j, j < i → needle.isPrefixOf (hay.drop j) = false := by
  intro hay
  induction hay with
  | nil =>
    intro i h
    rw [findSub] at h
    by_cases hp : needle.isPrefixOf ([] : List Char)
    · rw [if_pos hp] at h
      injection h with h
      subst h
      exact ⟨hp, fun j hj => absurd hj (Nat.not_lt_zero j)⟩
    · rw [if_neg hp] at h
      exact absurd h (by simp)
  | cons c t ih =>
    intro i h
    rw [findSub] at h
    by_cases hp : needle.isPrefixOf (c :: t)
    · rw [if_pos hp] at h
      injection h with h
      subst h
      exact ⟨hp, fun j hj => absurd hj (Nat.not_lt_zero j)⟩
    · rw [if_neg hp] at h
      rcases Option.map_eq_some'.mp h with ⟨i', hi', rfl⟩
      rcases ih i' hi' with ⟨hpre, hmin⟩
      refine ⟨by simpa using hpre, ?_⟩
      intro j hj
      cases j with
      | zero => simpa using Bool.eq_false_iff.mpr hp
      | succ j =>
        rw [List.drop_succ_cons]
        exact hmin j (Nat.lt_of_succ_lt_succ hj)

/-- When `findSub` finds nothing, the needle occurs nowhere: the `else`
branch of the Python `in` test. -/
theorem findSub_none_spec (needle : List Char) :
    ∀ hay : List Char, findSub needle hay = none →
      ∀ j : Nat, needle.isPrefixOf (hay.drop j) = false := by
  intro hay
  induction hay with
  | nil =>
    intro h j
    rw [findSub] at h
    by_cases hp : needle.isPrefixOf ([] : List Char)
    · rw [if_pos hp] at h; exact absurd h (by simp)
    · simpa using Bool.eq_false_iff.mpr hp
  | cons c t ih =>
    intro h j
    rw [findSub] at h
    by_cases hp : needle.isPrefixOf (c :: t)
    · rw [if_pos hp] at h; exact absurd h (by simp)
    · rw [if_neg hp] at h
      cases j with
      | zero => simpa using Bool.eq_false_iff.mpr hp
      | succ j =>
        rw [List.drop_succ_cons]
        exact ih (Option.map_eq_none'.mp h) j

/-- C5 amended: inside a multi-line comment, if the end-marker literal occurs
in the remaining line then `match_token` clears the inside flag and returns
the end-marker's kind with width equal to the index of the first occurrence
plus 2 (a constant written into the source, which coincides with the
end-marker length only when that literal has two characters); otherwise it
returns the end-marker's kind with width equal to the length of the entire
remaining line and the flag stays set. -/
theorem C5_amended_inside_end_width (cm : CommentMatcher) (stream : List Char)
    (hin : cm.is_multiline = true) :
    ((∃ j : Nat, cm.ml_end.symbol.isPrefixOf (stream.drop j) = true) →
      ∃ i : Nat, cm.ml_end.symbol.isPrefixOf (stream.drop i) = true ∧
        (∀ j, j < i → cm.ml_end.symbol.isPrefixOf (stream.drop j) = false) ∧
        cm.match_token stream =
          ({ cm with is_multiline := false }, some (⟨cm.ml_end.token, none⟩, i + 2))) ∧
    ((∀ j : Nat, cm.ml_end.symbol.isPrefixOf (stream.drop j) = false) →
      cm.match_token stream = (cm, some (⟨cm.ml_end.token, none⟩, stream.length))) := by
  rcases hf : findSub cm.ml_end.symbol stream with _ | i
  · constructor
    · intro hex
      rcases hex with ⟨j, hj⟩
      exact absurd hj (by simp [findSub_none_spec _ _ hf j])
    · intro _
      simp [CommentMatcher.match_token, hin, hf]
  · rcases findSub_some_spec _ _ _ hf with ⟨hpre, hmin⟩
    constructor
    · intro _
      exact ⟨i, hpre, hmin, by simp [CommentMatcher.match_token, hin, hf]⟩
    · intro hall
      exact absurd hpre (by simp [hall i])

/-- Witness for C5: a concrete inside-state matcher and line on which the
end marker `"*/"` occurs first at index 0, so the amended width is `0 + 2`. -/
theorem C5_amended_witness :
    CommentMatcher.match_token { demoCommentMatcher with is_multiline := true } ['*', '/'] =
      ({ demoCommentMatcher with is_multiline := false },
        some (⟨mlEndKind, none⟩, 0 + 2)) := by
  obtain ⟨i, hpre, hmin, heq⟩ :=
    (C5_amended_inside_end_width { demoCommentMatcher with is_multiline := true }
      ['*', '/'] rfl).1 ⟨0, by decide⟩
  match i, hpre, hmin, heq with
  | 0, _, _, heq => exact heq
  | i + 1, hpre, hmin, heq =>
    exact absurd (hmin 0 (Nat.succ_pos i)) (by decide)

/-- A specification line parses to a symbol exactly when its space-split
fields are that symbol's literal and kind, in that order. -/
theorem parseLine_eq_some (line : List Char) (s : Symbol) :
    SymbolMatcher.parseLine line = some s ↔ symbolLineFields line = [s.symbol, s.token] := by
  obtain ⟨ss, st⟩ := s
  unfold SymbolMatcher.parseLine
  rcases h : symbolLineFields line with _ | ⟨a, _ | ⟨b, _ | ⟨c, r⟩⟩⟩ <;>
    simp [Symbol.mk.injEq]

/-- A specification line parses exactly when it has two space-split fields. -/
theorem parseLine_isSome (line : List Char) :
    (SymbolMatcher.parseLine line).isSome = true ↔ (symbolLineFields line).length = 2 := by
  unfold SymbolMatcher.parseLine
  rcases h : symbolLineFields line with _ | ⟨a, _ | ⟨b, _ | ⟨c, r⟩⟩⟩ <;> simp

/-- The whole bulk parse succeeds exactly when every line has two fields. -/
theorem parseLines_isSome (lines : List (List Char)) :
    (SymbolMatcher.parseLines lines).isSome = true ↔
      ∀ l ∈ lines, (symbolLineFields l).length = 2 := by
  induction lines with
  | nil => simp [SymbolMatcher.parseLines]
  | cons line rest ih =>
    simp only [SymbolMatcher.parseLines]
    rcases h1 : SymbolMatcher.parseLine line with _ | s
    · have : ¬ (symbolLineFields line).length = 2 := by
        rw [← parseLine_isSome, h1]; simp
      simp [this]
    · have hl : (symbolLineFields line).length = 2 := by
        rw [← parseLine_isSome, h1]; simp
      rcases h2 : SymbolMatcher.parseLines rest with _ | syms
      · rw [h2] at ih
        simp only [List.mem_cons]
        constructor
        · intro h; exact absurd h (by simp)
        · intro hall
          exact absurd (ih.mpr fun l hl2 => hall l (Or.inr hl2)) (by simp)
      · rw [h2] at ih
        simp only [List.mem_cons]
        constructor
        · intro _ l hmem
          rcases hmem with rfl | hmem
          · exact hl
          · exact ih.mp (by simp) l hmem
        · intro _; simp

/-- A successful bulk parse pairs lines with symbols one to one, in order,
each line's two fields becoming the symbol's literal and kind. -/
theorem parseLines_pairs (lines : List (List Char)) :
    ∀ syms, SymbolMatcher.parseLines lines = some syms →
      List.Forall₂ (fun l s => symbolLineFields l = [s.symbol, s.token]) lines syms := by
  induction lines with
  | nil =>
    intro syms h
    simp only [SymbolMatcher.parseLines] at h
    injection h with h
    subst h
    exact List.Forall₂.nil
  | cons line rest ih =>
    intro syms h
    simp only [SymbolMatcher.parseLines] at h
    rcases h1 : SymbolMatcher.parseLine line with _ | s <;> rw [h1] at h
    · exact absurd h (by simp)
    · rcases h2 : SymbolMatcher.parseLines rest with _ | syms' <;> rw [h2] at h
      · exact absurd h (by simp)
      · injection h with h
        subst h
        exact List.Forall₂.cons ((parseLine_eq_some line s).mp h1) (ih syms' h2)

/-- C6 amended: in `SymbolMatcher` construction from a bulk specification,
each line's fields are obtained by stripping the line, splitting on single
space characters, discarding chunks that are empty or all-whitespace, and
stripping each kept chunk (so a bare tab does not separate fields);
construction succeeds exactly when every line — blank lines included —
yields exactly two such fields, and then the lines map in order to
`(literal, kind)` pairs given by each line's two fields; otherwise
construction fails immediately with `ValueError`. -/
theorem C6_amended_bulk_parse (spec : List Char) :
    ((SymbolMatcher.ofSpec spec).isSome = true ↔
      ∀ l ∈ pySplitlines spec, (symbolLineFields l).length = 2) ∧
    ∀ syms, SymbolMatcher.ofSpec spec = some syms →
      List.Forall₂ (fun l s => symbolLineFields l = [s.symbol, s.token])
        (pySplitlines spec) syms :=
  ⟨parseLines_isSome (pySplitlines spec),
    fun syms h => parseLines_pairs (pySplitlines spec) syms h⟩

/-- Witness for C6: the two-line specification `"a B\n; SEMI"` parses to the
two symbols in order. -/
theorem C6_amended_witness :
    List.Forall₂ (fun (l : List Char) (s : Symbol) => symbolLineFields l = [s.symbol, s.token])
      (pySplitlines ['a', ' ', 'B', '\n', ';', ' ', 'S'])
      ([⟨['a'], ['B']⟩, ⟨[';'], ['S']⟩] : List Symbol) :=
  (C6_amended_bulk_parse ['a', ' ', 'B', '\n', ';', ' ', 'S']).2
    ([⟨['a'], ['B']⟩, ⟨[';'], ['S']⟩] : List Symbol) rfl

/-- C7: `SymbolMatcher.match_token` returns the first pair in list order
whose literal is a prefix of the stream — every earlier pair fails the
prefix test — with the matched literal as text and the literal's length as
width, and returns no match exactly when no literal is a prefix.
Consequently, with literals `!==`, `!=`, `!` registered in that order under
kinds `K3`, `K2`, `K1`, scanning the line `"!=="` yields exactly one token,
of the `!==` pair's kind. -/
theorem C7_first_match_symbol :
    (∀ (symbols : List Symbol) (stream : List Char),
      (∀ r, SymbolMatcher.match_token symbols stream = some r →
        ∃ pre s post, symbols = pre ++ s :: post ∧
          (∀ p ∈ pre, p.symbol.isPrefixOf stream = false) ∧
          s.symbol.isPrefixOf stream = true ∧
          r = (⟨s.token, some s.symbol⟩, s.symbol.length)) ∧
      (SymbolMatcher.match_token symbols stream = none ↔
        ∀ s ∈ symbols, s.symbol.isPrefixOf stream = false)) ∧
    (Tokenizer.match_tokens [TokenMatcher.symbolMatcher demoBang] ['!', '=', '=']).2 =
      Except.ok [⟨⟨['K', '3'], some ['!', '=', '=']⟩, ⟨0, 0, some 3⟩⟩] := by
  constructor
  · intro symbols stream
    induction symbols with
    | nil =>
      constructor
      · intro r hr
        exact absurd hr (by simp [SymbolMatcher.match_token])
      · simp [SymbolMatcher.match_token]
    | cons s rest ih =>
      constructor
      · intro r hr
        by_cases hp : s.symbol.isPrefixOf stream = true
        · refine ⟨[], s, rest, rfl, by simp, hp, ?_⟩
          rw [SymbolMatcher.match_token, if_pos hp] at hr
          injection hr with hr
          exact hr.symm
        · have hp' : s.symbol.isPrefixOf stream = false := Bool.eq_false_iff.mpr hp
          rw [SymbolMatcher.match_token, if_neg hp] at hr
          obtain ⟨pre, s', post, heq, hpre, hps, hres⟩ := ih.1 r hr
          refine ⟨s :: pre, s', post, by rw [heq, List.cons_append], ?_, hps, hres⟩
          intro p hmem
          rcases List.mem_cons.mp hmem with rfl | hmem
          · exact hp'
          · exact hpre p hmem
      · rw [SymbolMatcher.match_token]
        by_cases hp : s.symbol.isPrefixOf stream = true
        · rw [if_pos hp]
          simp only [List.mem_cons]
          constructor
          · intro h; exact absurd h (by simp)
          · intro hall; exact absurd (hall s (Or.inl rfl)) (by simp [hp])
        · have hp' : s.symbol.isPrefixOf stream = false := Bool.eq_false_iff.mpr hp
          rw [if_neg hp]
          simp only [List.mem_cons]
          constructor
          · intro h l hmem
            rcases hmem with rfl | hmem
            · exact hp'
            · exact ih.2.mp h l hmem
          · intro hall
            exact ih.2.mpr fun l hmem => hall l (Or.inr hmem)
  · rfl

/-- Witness for C7: applying the first-match characterization at literals
`!==`, `!=`, `!` on the stream `"!#"` picks the `!` pair with width 1. -/
theorem C7_first_match_witness :
    ∃ pre s post, demoBang = pre ++ s :: post ∧
      (∀ p ∈ pre, p.symbol.isPrefixOf (['!', '#'] : List Char) = false) ∧
      s.symbol.isPrefixOf (['!', '#'] : List Char) = true ∧
      ((⟨['K', '1'], some ['!']⟩, 1) : FloatingToken × Nat) =
        (⟨s.token, some s.symbol⟩, s.symbol.length) :=
  (C7_first_match_symbol.1 demoBang ['!', '#']).1 (⟨['K', '1'], some ['!']⟩, 1) rfl

/-- C10: `end_matching` raises `NoEndException` exactly when the inside flag
is set and some emitted token has the start-marker kind; with the flag set
but no token of that kind present, it returns normally (a quirk of the
source: the reverse scan simply falls through without raising). -/
theorem C10_end_matching_condition (cm : CommentMatcher) (tokens : List Token) :
    ((∃ p, cm.end_matching tokens = some p) ↔
      cm.is_multiline = true ∧
        ∃ tok ∈ tokens, tok.token.token_id = cm.ml_start.token) ∧
    (cm.is_multiline = true →
      (∀ tok ∈ tokens, tok.token.token_id ≠ cm.ml_start.token) →
      cm.end_matching tokens = none) := by
  rcases him : cm.is_multiline with _ | _
  · constructor
    · simp [CommentMatcher.end_matching, him]
    · intro h; exact absurd h (by simp)
  · constructor
    · simp only [CommentMatcher.end_matching, him, if_pos]
      constructor
      · intro hex
        rcases hex with ⟨p, hp⟩
        rcases Option.map_eq_some'.mp hp with ⟨tok, hfind, _⟩
        have hmem := List.mem_reverse.mp (List.mem_of_find?_eq_some hfind)
        have hbeq := List.find?_some hfind
        exact ⟨trivial, tok, hmem, by simpa using hbeq⟩
      · intro hex
        rcases hex with ⟨_, tok, hmem, hid⟩
        have hsome : (tokens.reverse.find?
            (fun t => t.token.token_id == cm.ml_start.token)).isSome = true := by
          rw [List.find?_isSome]
          exact ⟨tok, List.mem_reverse.mpr hmem, by simpa using hid⟩
        rcases Option.isSome_iff_exists.mp hsome with ⟨tok', htok'⟩
        exact ⟨_, by rw [htok']; rfl⟩
    · intro _ hnone
      have hfind : tokens.reverse.find?
          (fun t => t.token.token_id == cm.ml_start.token) = none := by
        rw [List.find?_eq_none]
        intro tok hmem
        simpa using hnone tok (List.mem_reverse.mp hmem)
      simp [CommentMatcher.end_matching, him, hfind]

/-- Witness for C10: an inside-state matcher and a singleton token list whose
token carries the start-marker kind make `end_matching` raise. -/
theorem C10_end_matching_witness :
    ∃ p, CommentMatcher.end_matching { demoCommentMatcher with is_multiline := true }
      [⟨⟨mlStartKind, none⟩, ⟨2, 5, some 7⟩⟩] = some p :=
  (C10_end_matching_condition { demoCommentMatcher with is_multiline := true }
    [⟨⟨mlStartKind, none⟩, ⟨2, 5, some 7⟩⟩]).1.mpr
    ⟨rfl, ⟨⟨mlStartKind, none⟩, ⟨2, 5, some 7⟩⟩, List.mem_singleton_self _, rfl⟩

/-- C8: whenever the dispatcher has no match for the remaining text at the
whitespace-stripped cursor of the current line, the scan stops with
`BadTokenException` carrying the 0-indexed line number, the stripped cursor
column, and the full line text — no token list is produced; in particular,
scanning `"@@@"` with `@` unregistered raises it with line 0, column 0 and
line text `"@@@"`. -/
theorem C8_unmatched_input_failure :
    (∀ (fuel : Nat) (ms : List TokenMatcher) (line_number : Nat) (line : List Char)
        (line_pos : Nat) (output : List Token),
      line_pos < line.length →
      strippedPos line line_pos < line.length →
      (FloatingTokenizer.match_token ms (line.drop (strippedPos line line_pos))).2 = none →
      Tokenizer.scanLine (fuel + 1) ms line_number line line_pos output =
        ((FloatingTokenizer.match_token ms (line.drop (strippedPos line line_pos))).1,
          Except.error (ScanError.badToken line_number (strippedPos line line_pos) line))) ∧
    (Tokenizer.match_tokens [TokenMatcher.symbolMatcher demoBang] ['@', '@', '@']).2 =
      Except.error (ScanError.badToken 0 0 ['@', '@', '@']) := by
  constructor
  · intro fuel ms line_number line line_pos output hlt hstrip hnone
    rw [Tokenizer.scanLine, if_pos hlt, if_neg (Nat.ne_of_lt hstrip)]
    rcases hm : FloatingTokenizer.match_token ms (line.drop (strippedPos line line_pos))
      with ⟨ms1, r⟩
    rw [hm] at hnone
    rcases r with _ | r
    · rfl
    · exact absurd hnone (by simp)
  · rfl

/-- Witness for C8: one scan step on the line `"@"` with only the bang
symbols registered errors at line 7, column 0, line text `"@"`. -/
theorem C8_unmatched_witness :
    Tokenizer.scanLine 1 [TokenMatcher.symbolMatcher demoBang] 7 ['@'] 0 [] =
      ([TokenMatcher.symbolMatcher demoBang],
        Except.error (ScanError.badToken 7 0 ['@'])) := by
  have h := C8_unmatched_input_failure.1 0 [TokenMatcher.symbolMatcher demoBang] 7 ['@'] 0 []
    (by decide) (by decide) (by decide)
  exact h.trans rfl

/-- Every token in a successfully finished line scan was either carried in
from before the line or produced by the dispatcher at its recorded position
on this line. -/
theorem scanLine_tokens (fuel : Nat) :
    ∀ (ms : List TokenMatcher) (n : Nat) (line : List Char) (pos : Nat)
      (output out : List Token) (msFinal : List TokenMatcher),
      Tokenizer.scanLine fuel ms n line pos output = (msFinal, Except.ok out) →
      ∀ tok ∈ out, tok ∈ output ∨ tokOkLine n line tok := by
  induction fuel with
  | zero =>
    intro ms n line pos output out msFinal h
    rw [Tokenizer.scanLine] at h
    injection h with h1 h2
    exact absurd h2 (by simp)
  | succ fuel ih =>
    intro ms n line pos output out msFinal h
    rw [Tokenizer.scanLine] at h
    split at h
    · split at h
      · injection h with h1 h2
        injection h2 with h2
        subst h2
        intro tok htok
        exact Or.inl htok
      · split at h
        next ms1 hm =>
          injection h with h1 h2
          exact absurd h2 (by simp)
        next ms1 tok0 w hm =>
          intro tok htok
          rcases ih ms1 n line (strippedPos line pos + w) _ out msFinal h tok htok
            with hmem | hok
          · rcases List.mem_append.mp hmem with h1 | h2
            · exact Or.inl h1
            · right
              have heq : tok =
                  ⟨tok0, ⟨n, strippedPos line pos, some (strippedPos line pos + w)⟩⟩ :=
                List.mem_singleton.mp h2
              subst heq
              exact ⟨rfl, ms, w, by rw [hm], rfl⟩
          · exact Or.inr hok
    · injection h with h1 h2
      injection h2 with h2
      subst h2
      intro tok htok
      exact Or.inl htok

/-- Every token in a successfully finished multi-line scan was either carried
in or produced by the dispatcher at its recorded position on the line whose
index it records. -/
theorem matchLines_tokens :
    ∀ (lines : List (List Char)) (ms : List TokenMatcher) (n : Nat)
      (output out : List Token) (msFinal : List TokenMatcher),
      Tokenizer.matchLines ms lines n output = (msFinal, Except.ok out) →
      ∀ tok ∈ out, tok ∈ output ∨
        ∃ i, ∃ hi : i < lines.length, tokOkLine (n + i) (lines.get ⟨i, hi⟩) tok := by
  intro lines
  induction lines with
  | nil =>
    intro ms n output out msFinal h
    rw [Tokenizer.matchLines] at h
    injection h with h1 h2
    injection h2 with h2
    subst h2
    intro tok htok
    exact Or.inl htok
  | cons line rest ih =>
    intro ms n output out msFinal h
    rw [Tokenizer.matchLines] at h
    split at h
    next ms1 out1 hscan =>
      intro tok htok
      rcases ih ms1 (n + 1) out1 out msFinal h tok htok with hmem | ⟨i, hi, hok⟩
      · rcases scanLine_tokens (line.length + 1) ms n line 0 output out1 ms1 hscan tok hmem
          with h1 | h2
        · exact Or.inl h1
        · refine Or.inr ⟨0, by simp, ?_⟩
          simpa using h2
      · refine Or.inr ⟨i + 1, by simpa using hi, ?_⟩
        have harith : n + (i + 1) = (n + 1) + i := by omega
        rw [harith]
        simpa using hok
    next ms1 e hscan =>
      injection h with h1 h2
      exact absurd h2 (by simp)

/-- C9: every token emitted by a successful scan has position
`(line_number, pos, pos + width)` for the cursor `pos` at which the match was
attempted: its recorded line number indexes a real input line, the dispatcher
(at the matcher state current when the token was produced) matches that
line's suffix at the recorded start offset to exactly this token's unit with
some width `w`, and the recorded end offset minus the start offset is `w`. -/
theorem C9_token_positions (ms : List TokenMatcher) (stream : List Char)
    (toks : List Token)
    (h : (Tokenizer.match_tokens ms stream).2 = Except.ok toks) :
    ∀ tok ∈ toks, tokenFromDispatcher (pySplitlines stream) tok := by
  intro tok htok
  have h2 : (Tokenizer.matchLines ms (pySplitlines stream) 0 []).2 = Except.ok toks := h
  have hml : Tokenizer.matchLines ms (pySplitlines stream) 0 [] =
      ((Tokenizer.matchLines ms (pySplitlines stream) 0 []).1, Except.ok toks) := by
    rw [← h2]
  rcases matchLines_tokens (pySplitlines stream) ms 0 [] toks _ hml tok htok
    with hmem | ⟨i, hi, hnum, ms0, w, hm, hend⟩
  · exact absurd hmem (List.not_mem_nil tok)
  · have hnum' : tok.line_info.line_number = i := by simpa using hnum
    have hi' : tok.line_info.line_number < (pySplitlines stream).length := by
      rw [hnum']; exact hi
    refine ⟨hi', ms0, w, ?_, hend⟩
    have hfin : (⟨tok.line_info.line_number, hi'⟩ : Fin (pySplitlines stream).length) =
        ⟨i, hi⟩ := Fin.ext hnum'
    rw [hfin]
    exact hm

/-- Witness for C9: the single token of scanning `"!"` with the bang symbols
satisfies the position property. -/
theorem C9_token_positions_witness :
    tokenFromDispatcher (pySplitlines ['!'])
      ⟨⟨['K', '1'], some ['!']⟩, ⟨0, 0, some 1⟩⟩ :=
  C9_token_positions [TokenMatcher.symbolMatcher demoBang] ['!']
    [⟨⟨['K', '1'], some ['!']⟩, ⟨0, 0, some 1⟩⟩] rfl
    ⟨⟨['K', '1'], some ['!']⟩, ⟨0, 0, some 1⟩⟩ (List.mem_singleton_self _)

end FSMLang
